import Mathlib

/-!
Verification development for the survey-app repository (src/test1.py).

We shallowly embed the data-handling core of the program: the nested
survey record (Python dicts whose values are strings, `None`, or nested
dicts), `flatten_nested_dict`, `sanitize_filename`, the column-ordering
logic inside `save_survey_data`, and the persist / submit control flow
of `save_survey_data` and `main`'s submit handler.

Python dicts are modelled as insertion-ordered association structures
(`Entries`); `dict(items)` construction is modelled by `pyDict`, which
keeps the first-occurrence position and the last value of a duplicated
key, exactly as Python does. External effects (directory creation,
spreadsheet writing) are modelled by an environment `FsEnv` that says
which of them raise; the wall-clock timestamps are passed in as the two
strings the program would obtain from `datetime.now().strftime`.
-/

/-- A nested Python dict, in insertion order.  Each entry's value is
either `None` (`econsN`), a string (`econsS`), or a nested dict
(`econsD`).  These are the only value shapes the program ever stores in
a survey record. -/
inductive Entries where
  | enil : Entries
  | econsN : String → Entries → Entries
  | econsS : String → String → Entries → Entries
  | econsD : String → Entries → Entries → Entries
deriving DecidableEq, Repr

/-- A Python value as read out of a dict: `None`, a string, or a dict. -/
inductive Val where
  | vnone : Val
  | vstr : String → Val
  | vdict : Entries → Val
deriving DecidableEq, Repr

/-- Cons an entry with an explicit `Val` onto an `Entries`. -/
def econsV (k : String) : Val → Entries → Entries
  | .vnone, r => .econsN k r
  | .vstr s, r => .econsS k s r
  | .vdict d, r => .econsD k d r

/-- First-occurrence lookup in an `Entries` (Python `d[k]` / `k in d`). -/
def lookupE : Entries → String → Option Val
  | .enil, _ => none
  | .econsN k r, key => if k = key then some .vnone else lookupE r key
  | .econsS k s r, key => if k = key then some (.vstr s) else lookupE r key
  | .econsD k d r, key => if k = key then some (.vdict d) else lookupE r key

/-- Python `d.get(key, dflt)`. -/
def getE (e : Entries) (key : String) (dflt : Val) : Val :=
  (lookupE e key).getD dflt

/-- Python `d[key] = v`: replace the value in place when the key exists
(keeping its position), otherwise append the new entry at the end. -/
def setE : Entries → String → Val → Entries
  | .enil, key, v => econsV key v .enil
  | .econsN k r, key, v =>
      if k = key then econsV k v r else .econsN k (setE r key v)
  | .econsS k s r, key, v =>
      if k = key then econsV k v r else .econsS k s (setE r key v)
  | .econsD k d r, key, v =>
      if k = key then econsV k v r else .econsD k d (setE r key v)

/-- The top-level keys of an `Entries`, in order. -/
def keysE : Entries → List String
  | .enil => []
  | .econsN k r => k :: keysE r
  | .econsS k _ r => k :: keysE r
  | .econsD k _ r => k :: keysE r

/-- Number of scalar (non-dict) leaves of a nested record. -/
def numLeavesE : Entries → Nat
  | .enil => 0
  | .econsN _ r => 1 + numLeavesE r
  | .econsS _ _ r => 1 + numLeavesE r
  | .econsD _ d r => numLeavesE d + numLeavesE r

/-- The whitespace characters stripped by Python `str.strip()` (ASCII). -/
def isPyWs (c : Char) : Bool :=
  c = ' ' || c = '\t' || c = '\n' || c = '\r' || c = '\x0b' || c = '\x0c'

/-- Python `str.strip()` on a character list: drop leading and trailing
whitespace. -/
def stripChars (l : List Char) : List Char :=
  ((l.dropWhile isPyWs).reverse.dropWhile isPyWs).reverse

/-- The characters blocked by `sanitize_filename`'s regular expression
character class. -/
def badChar (c : Char) : Bool :=
  c = '<' || c = '>' || c = ':' || c = '"' || c = '/' || c = '\\' ||
    c = '|' || c = '?' || c = '*'

/-- The substitution performed on each character by
`re.sub(r'[<>:"/\\|?*]', '_', filename)`. -/
def replChar (c : Char) : Char :=
  if badChar c then '_' else c

/-- `sanitize_filename` (src/test1.py lines 62-67): replace every blocked
character by an underscore, then strip surrounding whitespace. -/
def sanitize_filename (s : String) : String :=
  ⟨stripChars (s.data.map replChar)⟩

/-- Does `needle` occur at the start of `hay`? -/
def startsWithL : List Char → List Char → Bool
  | [], _ => true
  | _ :: _, [] => false
  | a :: as, b :: bs => a = b && startsWithL as bs

/-- Substring search over character lists. -/
def subIn : List Char → List Char → Bool
  | needle, [] => needle.isEmpty
  | needle, c :: rest => startsWithL needle (c :: rest) || subIn needle rest

/-- Python `needle in hay` on strings: substring containment. -/
def pyIn (needle hay : String) : Bool :=
  subIn needle.data hay.data

/-- The value normalization inside `flatten_nested_dict` (lines 55-58):
`None` and whitespace-only strings become the sentinel; this function is
the string half of it. -/
def pyNorm (s : String) : String :=
  if (stripChars s.data).isEmpty then "N/A" else s

/-- One step of Python `dict(items)` construction: adding a pair whose
key is already present overwrites the value in place; otherwise the pair
is appended. -/
def dInsert (acc : List (String × String)) (kv : String × String) :
    List (String × String) :=
  if acc.any (fun p => p.1 = kv.1) then
    acc.map (fun p => if p.1 = kv.1 then (p.1, kv.2) else p)
  else
    acc ++ [kv]

/-- Python `dict(items)` as a function on association lists: keeps the
first-occurrence position and the last value of each key. -/
def pyDict (l : List (String × String)) : List (String × String) :=
  l.foldl dInsert []

/-- The compound key computed at line 49:
`f"{parent_key}{sep}{k}" if parent_key else k`. -/
def joinKey (parent sep k : String) : String :=
  if parent = "" then k else parent ++ sep ++ k

/-- The `items` list accumulated by `flatten_nested_dict` (lines 47-58):
a nested value recursively contributes the items of its own flattening
(which, being a Python dict, has already been through `pyDict`), a
scalar contributes one normalized pair. -/
def fndE (parent sep : String) : Entries → List (String × String)
  | .enil => []
  | .econsN k r => (joinKey parent sep k, "N/A") :: fndE parent sep r
  | .econsS k s r => (joinKey parent sep k, pyNorm s) :: fndE parent sep r
  | .econsD k d r =>
      pyDict (fndE (joinKey parent sep k) sep d) ++ fndE parent sep r

/-- `flatten_nested_dict` (lines 42-60): the accumulated items turned
into a dict. -/
def flatten_nested_dict (e : Entries) (parent sep : String) :
    List (String × String) :=
  pyDict (fndE parent sep e)

/-- Modelled from the spec's Flattener algorithm (section 4.2), for
comparison with the code's `flatten_nested_dict`: depth-first traversal
emitting `(compound_key, normalized value)` per scalar leaf and splicing
nested results, with no dict reconstruction step. -/
def specFE (parent sep : String) : Entries → List (String × String)
  | .enil => []
  | .econsN k r => (joinKey parent sep k, "N/A") :: specFE parent sep r
  | .econsS k s r => (joinKey parent sep k, pyNorm s) :: specFE parent sep r
  | .econsD k d r =>
      specFE (joinKey parent sep k) sep d ++ specFE parent sep r

/-- The keys of a flattened association list. -/
def keysOf (l : List (String × String)) : List String :=
  l.map Prod.fst

/-- Insert a string into an already-sorted list, keeping ascending
order. -/
def insertSorted (x : String) : List String → List String
  | [] => [x]
  | y :: ys => if x < y then x :: y :: ys else y :: insertSorted x ys

/-- Python `sorted` on a list of strings (ascending lexicographic). -/
def sortStrings (l : List String) : List String :=
  l.foldr insertSorted []

/-- The fixed section sequence of `save_survey_data` (lines 102-107). -/
def sections : List String :=
  ["ashram_name",
   "Property Ownership and Legal Documents",
   "Trust/Society Details & Documents",
   "Institutions Details & Documents"]

/-- The column reordering of `save_survey_data` (lines 99-115): start
with `timestamp`, append each section's substring-matched columns in
sorted order, then append the columns not yet placed, in their original
order. -/
def column_order (cols : List String) : List String :=
  let withSections :=
    "timestamp" ::
      sections.foldr
        (fun s acc => sortStrings (cols.filter (fun col => pyIn s col)) ++ acc)
        []
  withSections ++ cols.filter (fun col => !(withSections.contains col))

/-- Modelled from the spec's Column Orderer algorithm (section 4.3), for
comparison with the code's `column_order`: the literal key `timestamp`
first when present, then each section's substring matches sorted
alphabetically, then the keys not yet placed in original order. -/
def orderSpec (cols : List String) : List String :=
  let placed :=
    (if "timestamp" ∈ cols then ["timestamp"] else []) ++
      sections.foldr
        (fun s acc => sortStrings (cols.filter (fun col => pyIn s col)) ++ acc)
        []
  placed ++ cols.filter (fun col => !(placed.contains col))

/-- Which external effects of `save_survey_data` raise, and with what
message: `makedirsErr` is the `os.makedirs` call at line 75 (outside the
`try`), `writeErr` stands for any failure of the spreadsheet write /
read-back / encode steps at lines 121-126 (inside the `try`). -/
structure FsEnv where
  makedirsErr : Option String
  writeErr : Option String
deriving DecidableEq, Repr

/-- How a call to a Python function ends: an uncaught exception, or a
normal return value. -/
inductive Outcome where
  | raised : String → Outcome
  | ret : Bool → Outcome
deriving DecidableEq, Repr

/-- The written spreadsheet: its filename, its header row of column
names, and its single data row. -/
structure Artifact where
  filename : String
  header : List String
  row : List String
deriving DecidableEq, Repr

/-- Everything observable about one call to `save_survey_data`: how it
ended, the final state of the (mutated-in-place) record, the filename it
computed at line 88 when it got that far, the written artifact on
success, and the messages shown to the user. -/
structure SaveResult where
  outcome : Outcome
  dict : Entries
  filename : Option String
  artifact : Option Artifact
  messages : List String
deriving DecidableEq, Repr

/-- The row selection `df[column_order]`: look each ordered column up in
the flattened record; a missing column is a `KeyError`. -/
def rowFor (flat : List (String × String)) : List String → Option (List String)
  | [] => some []
  | c :: cs =>
      match (flat.find? (fun p => p.1 = c)), rowFor flat cs with
      | some p, some r => some (p.2 :: r)
      | _, _ => none

/-- The `try` block of `save_survey_data` (lines 91-135), run on the
already-stamped record `data` and the already-computed `filename`:
flatten, build the one-row table, reorder its columns, write it and read
it back.  A failure anywhere inside — a missing column during the
reorder, or a write / read-back / encode failure injected by the
environment — is caught and turned into a `False` return plus an error
message. -/
def try_block (env : FsEnv) (data : Entries) (filename : String) : SaveResult :=
  let flat := flatten_nested_dict data "" "_"
  let order := column_order (keysOf flat)
  match rowFor flat order with
  | none =>
      { outcome := .ret false, dict := data, filename := some filename,
        artifact := none, messages := ["Error saving survey: KeyError"] }
  | some row =>
      match env.writeErr with
      | some e =>
          { outcome := .ret false, dict := data, filename := some filename,
            artifact := none, messages := ["Error saving survey: " ++ e] }
      | none =>
          { outcome := .ret true, dict := data, filename := some filename,
            artifact := some ⟨filename, order, row⟩,
            messages := ["Survey saved successfully!"] }

/-- `save_survey_data` (lines 69-135).  `now1` is
`datetime.now().strftime("%Y-%m-%d %H:%M:%S")` (line 78) and `now2` is
`datetime.now().strftime("%Y%m%d_%H%M%S")` (line 87).  The `makedirs`
call runs before the `try`, so its failure is an uncaught exception; a
non-string `ashram_name` value would make `re.sub` raise a `TypeError`,
also before the `try`; everything from the flattening onwards is inside
the `try` and a failure there returns `False` with an error message. -/
def save_survey_data (env : FsEnv) (now1 now2 : String)
    (survey_data : Entries) : SaveResult :=
  match env.makedirsErr with
  | some e =>
      { outcome := .raised e, dict := survey_data, filename := none,
        artifact := none, messages := [] }
  | none =>
      let data := setE survey_data "timestamp" (.vstr now1)
      match getE data "ashram_name" (.vstr "Unknown_Ashram") with
      | .vstr name =>
          try_block env data (sanitize_filename name ++ "_" ++ now2 ++ ".xlsx")
      | _ =>
          { outcome := .raised "TypeError", dict := data, filename := none,
            artifact := none, messages := [] }

/-- A section slot of `st.session_state.survey_data`: `None` until the
section is visited, then its answers dict. -/
def optV : Option Entries → Val
  | none => .vnone
  | some d => .vdict d

/-- The merged record built by `main` (lines 280-285) once the Property
slot is known to be a dict. -/
def final_survey_data (p : Entries) (t i : Option Entries) : Entries :=
  econsV "ashram_name" (getE p "ashram_name" (.vstr "N/A"))
    (.econsD "Property Ownership and Legal Documents" p
      (econsV "Trust/Society Details & Documents" (optV t)
        (econsV "Institutions Details & Documents" (optV i) .enil)))

/-- `main`'s submit handler (lines 278-288): it reads
`survey_data['Property Ownership and Legal Documents'].get(...)` with no
exception handling, so when that slot is still `None` the attribute
access raises and nothing is saved. -/
def submit_survey (env : FsEnv) (now1 now2 : String)
    (propSlot trustSlot instSlot : Option Entries) : SaveResult :=
  match propSlot with
  | none =>
      { outcome := .raised "AttributeError: NoneType object has no attribute get",
        dict := .enil, filename := none, artifact := none, messages := [] }
  | some p =>
      save_survey_data env now1 now2 (final_survey_data p trustSlot instSlot)

def envOk : FsEnv := { makedirsErr := none, writeErr := none }

theorem keysOf_nil : keysOf [] = [] := rfl

theorem keysOf_cons (kv : String × String) (l : List (String × String)) :
    keysOf (kv :: l) = kv.1 :: keysOf l := rfl

theorem keysOf_append (l1 l2 : List (String × String)) :
    keysOf (l1 ++ l2) = keysOf l1 ++ keysOf l2 :=
  List.map_append _ _ _

theorem foldl_dInsert_eq_append :
    ∀ (l acc : List (String × String)), (keysOf (acc ++ l)).Nodup →
      List.foldl dInsert acc l = acc ++ l := by
  intro l
  induction l with
  | nil => intro acc _; simp
  | cons kv t ih =>
    intro acc h
    have hk : kv.1 ∉ keysOf acc := by
      have h2 : (keysOf acc ++ kv.1 :: keysOf t).Nodup := by
        simpa [keysOf, List.map_append] using h
      have hd := List.disjoint_of_nodup_append h2
      intro hmem
      exact hd hmem (List.mem_cons_self _ _)
    have hins : dInsert acc kv = acc ++ [kv] := by
      have hany : acc.any (fun p => p.1 = kv.1) = false := by
        rw [List.any_eq_false]
        intro p hp
        simp only [decide_eq_true_eq]
        intro hpe
        exact hk (hpe ▸ List.mem_map_of_mem Prod.fst hp)
      simp [dInsert, hany]
    rw [List.foldl_cons, hins, ih (acc ++ [kv]) (by simpa [List.append_assoc] using h)]
    simp

theorem pyDict_of_nodup (l : List (String × String)) (h : (keysOf l).Nodup) :
    pyDict l = l := by
  simpa using foldl_dInsert_eq_append l [] (by simpa using h)

theorem fndE_eq_specFE :
    ∀ (e : Entries) (parent sep : String),
      (keysOf (specFE parent sep e)).Nodup →
      fndE parent sep e = specFE parent sep e := by
  intro e
  induction e with
  | enil => intro p s _; rfl
  | econsN k r ih =>
    intro p s h
    rw [fndE, specFE, ih p s]
    rw [specFE, keysOf_cons] at h
    exact h.of_cons
  | econsS k v r ih =>
    intro p s h
    rw [fndE, specFE, ih p s]
    rw [specFE, keysOf_cons] at h
    exact h.of_cons
  | econsD k d r ihd ihr =>
    intro p s h
    rw [specFE, keysOf_append] at h
    have hl := h.of_append_left
    have hr := h.of_append_right
    rw [fndE, specFE, ihd _ _ hl, ihr _ _ hr, pyDict_of_nodup _ hl]

theorem specFE_length :
    ∀ (e : Entries) (parent sep : String),
      (specFE parent sep e).length = numLeavesE e := by
  intro e
  induction e with
  | enil => intro p s; rfl
  | econsN k r ih => intro p s; simp [specFE, numLeavesE, ih, Nat.add_comm]
  | econsS k v r ih => intro p s; simp [specFE, numLeavesE, ih, Nat.add_comm]
  | econsD k d r ihd ihr => intro p s; simp [specFE, numLeavesE, ihd, ihr]

theorem insertSorted_perm (x : String) (l : List String) :
    (insertSorted x l).Perm (x :: l) := by
  induction l with
  | nil => exact List.Perm.refl _
  | cons y ys ih =>
    rw [insertSorted]
    by_cases h : x < y
    · rw [if_pos h]
    · rw [if_neg h]
      exact (ih.cons y).trans (List.Perm.swap x y ys)

theorem sortStrings_perm (l : List String) : (sortStrings l).Perm l := by
  induction l with
  | nil => exact List.Perm.refl _
  | cons x t ih =>
    exact (insertSorted_perm x (sortStrings t)).trans (ih.cons x)

theorem lookupE_econsV (k : String) (v : Val) (r : Entries) (key : String) :
    lookupE (econsV k v r) key = if k = key then some v else lookupE r key := by
  cases v <;> rfl

theorem lookupE_setE_self :
    ∀ (e : Entries) (key : String) (v : Val),
      lookupE (setE e key v) key = some v := by
  intro e
  induction e with
  | enil => intro key v; rw [setE, lookupE_econsV, if_pos rfl]
  | econsN k r ih =>
    intro key v
    rw [setE]
    by_cases h : k = key
    · rw [if_pos h, lookupE_econsV, if_pos h]
    · rw [if_neg h, lookupE, if_neg h, ih]
  | econsS k s r ih =>
    intro key v
    rw [setE]
    by_cases h : k = key
    · rw [if_pos h, lookupE_econsV, if_pos h]
    · rw [if_neg h, lookupE, if_neg h, ih]
  | econsD k d r ih₂ ih =>
    intro key v
    rw [setE]
    by_cases h : k = key
    · rw [if_pos h, lookupE_econsV, if_pos h]
    · rw [if_neg h, lookupE, if_neg h, ih]

theorem lookupE_setE_ne :
    ∀ (e : Entries) (key other : String) (v : Val), other ≠ key →
      lookupE (setE e key v) other = lookupE e other := by
  intro e
  induction e with
  | enil =>
    intro key other v hne
    rw [setE, lookupE_econsV, if_neg (fun h => hne h.symm), lookupE]
  | econsN k r ih =>
    intro key other v hne
    rw [setE]
    by_cases h : k = key
    · subst h
      rw [if_pos rfl, lookupE_econsV, lookupE,
        if_neg (fun he => hne he.symm), if_neg (fun he => hne he.symm)]
    · rw [if_neg h, lookupE, lookupE, ih _ _ _ hne]
  | econsS k s r ih =>
    intro key other v hne
    rw [setE]
    by_cases h : k = key
    · subst h
      rw [if_pos rfl, lookupE_econsV, lookupE,
        if_neg (fun he => hne he.symm), if_neg (fun he => hne he.symm)]
    · rw [if_neg h, lookupE, lookupE, ih _ _ _ hne]
  | econsD k d r ih₂ ih =>
    intro key other v hne
    rw [setE]
    by_cases h : k = key
    · subst h
      rw [if_pos rfl, lookupE_econsV, lookupE,
        if_neg (fun he => hne he.symm), if_neg (fun he => hne he.symm)]
    · rw [if_neg h, lookupE, lookupE, ih _ _ _ hne]

theorem stripChars_eq_rdrop (l : List Char) :
    stripChars l = List.rdropWhile isPyWs (List.dropWhile isPyWs l) := rfl

theorem rdropWhile_isPre (p : Char → Bool) (l : List Char) :
    List.rdropWhile p l <+: l :=
  List.rdropWhile_prefix p l

theorem stripChars_sublist (l : List Char) : List.Sublist (stripChars l) l := by
  rw [stripChars_eq_rdrop]
  exact ((rdropWhile_isPre isPyWs _).sublist).trans (List.dropWhile_suffix isPyWs).sublist

theorem badChar_replChar (c : Char) : badChar (replChar c) = false := by
  rw [replChar]
  by_cases h : badChar c = true
  · rw [if_pos h]; rfl
  · rw [if_neg h]
    exact Bool.not_eq_true _ |>.mp h

theorem replChar_idem (c : Char) : replChar (replChar c) = replChar c := by
  have h := badChar_replChar c
  rw [replChar, h]
  simp

theorem sanitize_no_bad (s : String) :
    ∀ c ∈ (sanitize_filename s).data, badChar c = false := by
  intro c hc
  have hc2 : c ∈ s.data.map replChar := (stripChars_sublist _).subset hc
  obtain ⟨a, _, rfl⟩ := List.mem_map.1 hc2
  exact badChar_replChar a

theorem dropWhile_rdropWhile_of_fixed (p : Char → Bool) (m : List Char)
    (hm : List.dropWhile p m = m) :
    List.dropWhile p (List.rdropWhile p m) = List.rdropWhile p m := by
  rw [List.dropWhile_eq_self_iff] at hm ⊢
  intro hl
  have hpre := rdropWhile_isPre p m
  have hlen : 0 < m.length := lt_of_lt_of_le hl hpre.length_le
  have hget := hpre.getElem (n := 0) hl
  simp only [List.get_eq_getElem]
  rw [hget]
  simpa only [List.get_eq_getElem] using hm hlen

theorem stripChars_idem (l : List Char) :
    stripChars (stripChars l) = stripChars l := by
  rw [stripChars_eq_rdrop, stripChars_eq_rdrop,
    dropWhile_rdropWhile_of_fixed isPyWs _ (List.dropWhile_idempotent isPyWs l)]
  exact List.rdropWhile_idempotent _ _

theorem sanitize_idem (s : String) :
    sanitize_filename (sanitize_filename s) = sanitize_filename s := by
  have h1 : ∀ a ∈ stripChars (List.map replChar s.data), replChar a = id a := by
    intro a ha
    obtain ⟨b, _, rfl⟩ := List.mem_map.1 ((stripChars_sublist _).subset ha)
    exact replChar_idem b
  have hmap : List.map replChar (stripChars (List.map replChar s.data)) =
      stripChars (List.map replChar s.data) := by
    rw [List.map_congr_left h1, List.map_id]
  show (⟨stripChars (List.map replChar (stripChars (List.map replChar s.data)))⟩ : String) =
    ⟨stripChars (List.map replChar s.data)⟩
  rw [hmap, stripChars_idem]

theorem count_filter_nodup (cols : List String) (c : String) (q : String → Bool)
    (hnd : cols.Nodup) (hc : c ∈ cols) :
    List.count c (cols.filter q) = if q c then 1 else 0 := by
  by_cases hq : q c = true
  · rw [if_pos hq]
    exact List.count_eq_one_of_mem (hnd.filter q) (List.mem_filter.2 ⟨hc, hq⟩)
  · rw [if_neg hq]
    exact List.count_eq_zero_of_not_mem (fun hmem => hq (List.mem_filter.1 hmem).2)

theorem count_sortStrings_filter (cols : List String) (c : String) (q : String → Bool)
    (hnd : cols.Nodup) (hc : c ∈ cols) :
    List.count c (sortStrings (cols.filter q)) = if q c then 1 else 0 := by
  rw [(sortStrings_perm _).count_eq]
  exact count_filter_nodup cols c q hnd hc

theorem mem_sortStrings_filter (cols : List String) (c : String) (q : String → Bool)
    (hc : c ∈ cols) :
    c ∈ sortStrings (cols.filter q) ↔ q c = true := by
  rw [(sortStrings_perm _).mem_iff, List.mem_filter]
  exact ⟨fun h => h.2, fun h => ⟨hc, h⟩⟩

theorem column_order_count (cols : List String) (c : String)
    (hnd : cols.Nodup) (hc : c ∈ cols) :
    List.count c (column_order cols) =
      if c = "timestamp" then 1
      else max 1 (List.countP (fun s => pyIn s c) sections) := by
  have hb : ∀ q : String → Bool,
      List.count c (sortStrings (cols.filter q)) = if q c then 1 else 0 :=
    fun q => count_sortStrings_filter cols c q hnd hc
  have hcf : ∀ q : String → Bool,
      List.count c (cols.filter q) = if q c then 1 else 0 :=
    fun q => count_filter_nodup cols c q hnd hc
  have hbm : ∀ q : String → Bool, (c ∈ sortStrings (cols.filter q)) ↔ q c = true :=
    fun q => mem_sortStrings_filter cols c q hc
  rw [column_order]
  simp only [sections, List.foldr_cons, List.foldr_nil, List.append_nil,
    List.count_append, List.count_cons, hb, hcf, List.contains, List.elem_eq_mem,
    List.mem_cons, List.mem_append, hbm, List.countP_cons, List.countP_nil]
  by_cases ht : c = "timestamp" <;>
    by_cases h1 : pyIn "ashram_name" c = true <;>
    by_cases h2 : pyIn "Property Ownership and Legal Documents" c = true <;>
    by_cases h3 : pyIn "Trust/Society Details & Documents" c = true <;>
    by_cases h4 : pyIn "Institutions Details & Documents" c = true <;>
    first
      | (subst ht; revert h1 h2 h3 h4; decide)
      | (simp [ht, Ne.symm ht, h1, h2, h3, h4])

/-- C1 (counterexample): the Column Orderer does NOT emit every input key
exactly once.  The key `"Property Ownership and Legal Documents_ashram_name"`
(which every real submission produces) contains both the section name
`"ashram_name"` and the section name
`"Property Ownership and Legal Documents"` as substrings, so the ordered
column sequence lists it twice. -/
theorem column_order_duplicates_cex :
    (["timestamp",
      "Property Ownership and Legal Documents_ashram_name"] : List String).Nodup ∧
    "Property Ownership and Legal Documents_ashram_name" ∈
      (["timestamp",
        "Property Ownership and Legal Documents_ashram_name"] : List String) ∧
    List.count "Property Ownership and Legal Documents_ashram_name"
      (column_order
        ["timestamp",
         "Property Ownership and Legal Documents_ashram_name"]) = 2 := by
  refine ⟨by decide, by decide, by decide⟩

/-- C1 (amended): for a duplicate-free set of flattened keys, the ordered
column sequence produced by `save_survey_data`'s reordering contains each
input key at least once, and exactly once unless the key's text contains
more than one section name as a substring, in which case it appears once
per matching section: the multiplicity of key `c` is `1` for `"timestamp"`
and `max 1 (number of sections whose name is a substring of c)` otherwise. -/
theorem column_order_multiplicity (cols : List String) (c : String)
    (hnd : cols.Nodup) (hc : c ∈ cols) :
    List.count c (column_order cols) =
      if c = "timestamp" then 1
      else max 1 (List.countP (fun s => pyIn s c) sections) :=
  column_order_count cols c hnd hc

theorem column_order_multiplicity_witness :
    ((["timestamp", "ashram_name", "extra"] : List String).Nodup ∧
      "ashram_name" ∈ (["timestamp", "ashram_name", "extra"] : List String)) ∧
    List.count "ashram_name" (column_order ["timestamp", "ashram_name", "extra"]) =
      (if "ashram_name" = "timestamp" then 1
       else max 1 (List.countP (fun s => pyIn s "ashram_name") sections)) :=
  ⟨⟨by decide, by decide⟩, column_order_multiplicity _ _ (by decide) (by decide)⟩

/-- C2: for every nested mapping whose compound paths are duplicate-free,
`flatten_nested_dict` agrees with the spec's Flattener (`specFE`), which
emits exactly one `(compound_key, value)` pair per scalar leaf — the key
being the parent keys joined with the separator, the value being `"N/A"`
for `None` or whitespace-only leaves and the unchanged leaf otherwise;
moreover the spec flattening always has exactly one entry per scalar
leaf, and the concrete `land_title` example flattens as stated. -/
theorem flatten_matches_spec :
    (∀ (e : Entries) (parent sep : String),
        (keysOf (specFE parent sep e)).Nodup →
        flatten_nested_dict e parent sep = specFE parent sep e) ∧
    (∀ (e : Entries) (parent sep : String),
        (specFE parent sep e).length = numLeavesE e) ∧
    flatten_nested_dict
        (.econsD "land_title"
          (.econsS "number_of_documents" ""
            (.econsN "additional_comments" .enil)) .enil) "" "_" =
      [("land_title_number_of_documents", "N/A"),
       ("land_title_additional_comments", "N/A")] := by
  refine ⟨?_, specFE_length, by decide⟩
  intro e parent sep h
  rw [flatten_nested_dict, fndE_eq_specFE e parent sep h, pyDict_of_nodup _ h]

theorem flatten_matches_spec_witness :
    (keysOf (specFE "" "_" (.econsS "a" "x" (.econsN "b" .enil)))).Nodup ∧
    flatten_nested_dict (.econsS "a" "x" (.econsN "b" .enil)) "" "_" =
      specFE "" "_" (.econsS "a" "x" (.econsN "b" .enil)) :=
  ⟨by decide, flatten_matches_spec.1 _ "" "_" (by decide)⟩

/-- C6: for every input string, `sanitize_filename`'s output contains
none of the blocked characters `< > : " / \ | ? *`, and
`sanitize_filename` is idempotent. -/
theorem sanitize_filename_safe_idem (s : String) :
    (∀ c ∈ (sanitize_filename s).data, badChar c = false) ∧
    sanitize_filename (sanitize_filename s) = sanitize_filename s :=
  ⟨sanitize_no_bad s, sanitize_idem s⟩

theorem sanitize_filename_safe_idem_witness :
    (∀ c ∈ (sanitize_filename " a/b<c> ").data, badChar c = false) ∧
    sanitize_filename (sanitize_filename " a/b<c> ") = sanitize_filename " a/b<c> " :=
  sanitize_filename_safe_idem " a/b<c> "

/-- C7: whenever the key `"timestamp"` is present in the flattened key
set (as it always is after `save_survey_data` stamps it), the column
order computed by the code equals the ordering described by the spec:
`timestamp` first, then for each section name in the fixed order every
key containing that name as a substring sorted alphabetically, then the
keys not yet placed in their original encounter order.  Both sides are
pure functions of the key list, so the ordering is deterministic. -/
theorem column_order_matches_ordering_spec (cols : List String)
    (h : "timestamp" ∈ cols) : column_order cols = orderSpec cols := by
  simp [column_order, orderSpec, h]

theorem column_order_matches_ordering_spec_witness :
    "timestamp" ∈ (["timestamp", "a"] : List String) ∧
    column_order ["timestamp", "a"] = orderSpec ["timestamp", "a"] :=
  ⟨by decide, column_order_matches_ordering_spec _ (by decide)⟩

theorem try_block_dict (env : FsEnv) (data : Entries) (fn : String) :
    (try_block env data fn).dict = data := by
  rw [try_block]
  split
  · rfl
  · split <;> rfl

theorem try_block_filename (env : FsEnv) (data : Entries) (fn : String) :
    (try_block env data fn).filename = some fn := by
  rw [try_block]
  split
  · rfl
  · split <;> rfl

theorem try_block_ret (env : FsEnv) (data : Entries) (fn : String) :
    ∃ b, (try_block env data fn).outcome = .ret b := by
  rw [try_block]
  split
  · exact ⟨false, rfl⟩
  · split
    · exact ⟨false, rfl⟩
    · exact ⟨true, rfl⟩

theorem try_block_writeErr (env : FsEnv) (data : Entries) (fn : String)
    (e : String) (h : env.writeErr = some e) :
    (try_block env data fn).outcome = .ret false ∧
    ∃ m, (try_block env data fn).messages = ["Error saving survey: " ++ m] := by
  rw [try_block]
  split
  · exact ⟨rfl, "KeyError", rfl⟩
  · rw [h]
    exact ⟨rfl, e, rfl⟩

theorem lookupE_stamp (data : Entries) (v : Val) :
    lookupE (setE data "timestamp" v) "ashram_name" = lookupE data "ashram_name" :=
  lookupE_setE_ne data "timestamp" "ashram_name" v (by decide)

theorem save_dict_eq (env : FsEnv) (now1 now2 : String) (data : Entries)
    (h : env.makedirsErr = none) :
    (save_survey_data env now1 now2 data).dict =
      setE data "timestamp" (.vstr now1) := by
  rw [save_survey_data, h]
  cases hg : getE (setE data "timestamp" (.vstr now1)) "ashram_name"
      (.vstr "Unknown_Ashram") with
  | vnone => simp [hg]
  | vstr name => simp [hg, try_block_dict]
  | vdict d => simp [hg]

theorem save_filename_eq (env : FsEnv) (now1 now2 : String) (data : Entries)
    (name : String) (h : env.makedirsErr = none)
    (hg : getE (setE data "timestamp" (.vstr now1)) "ashram_name"
      (.vstr "Unknown_Ashram") = .vstr name) :
    (save_survey_data env now1 now2 data).filename =
      some (sanitize_filename name ++ "_" ++ now2 ++ ".xlsx") := by
  rw [save_survey_data, h]
  simp [hg, try_block_filename]

/-- C3 (counterexample): not every error inside the persist operation is
caught and converted to a boolean.  The directory-creation step
(`os.makedirs`, line 75) runs before the `try` block, so its failure
propagates out of `save_survey_data`, and `main`'s submit handler has no
handler of its own: the exception escapes past the submit action. -/
theorem makedirs_error_uncaught_cex :
    (submit_survey { makedirsErr := some "PermissionError", writeErr := none }
        "2025-01-01 00:00:00" "20250101_000000"
        (some (.econsS "ashram_name" "X" .enil)) none none).outcome =
      .raised "PermissionError" := by decide

/-- C3 (amended): every error raised inside the `try` block of the
persist operation (flattening, table construction, column reorder, file
write / read-back / encode) is caught at the Record Store boundary and
converted into a `False` return plus a user-visible error message —
provided directory creation succeeded and the record's `ashram_name`
value, if present, is a string (both always hold on `main`'s path).
Directory-creation failures, by contrast, are not caught (see the
counterexample). -/
theorem try_block_errors_caught (env : FsEnv) (now1 now2 : String)
    (data : Entries) (h : env.makedirsErr = none)
    (ha : ∀ v, lookupE data "ashram_name" = some v → ∃ s, v = Val.vstr s) :
    (∃ b, (save_survey_data env now1 now2 data).outcome = .ret b) ∧
    (∀ e, env.writeErr = some e →
      (save_survey_data env now1 now2 data).outcome = .ret false ∧
      ∃ m, (save_survey_data env now1 now2 data).messages =
        ["Error saving survey: " ++ m]) := by
  have hname : ∃ name,
      getE (setE data "timestamp" (.vstr now1)) "ashram_name"
        (.vstr "Unknown_Ashram") = .vstr name := by
    rw [getE, lookupE_stamp]
    cases hl : lookupE data "ashram_name" with
    | none => exact ⟨"Unknown_Ashram", rfl⟩
    | some v =>
        obtain ⟨s, rfl⟩ := ha v hl
        exact ⟨s, rfl⟩
  obtain ⟨name, hg⟩ := hname
  constructor
  · rw [save_survey_data, h]
    simp only [hg]
    exact try_block_ret env _ _
  · intro e he
    rw [save_survey_data, h]
    simp only [hg]
    exact try_block_writeErr env _ _ e he

theorem try_block_errors_caught_witness :
    (({ makedirsErr := none, writeErr := some "disk full" } : FsEnv).makedirsErr = none ∧
      (∀ v, lookupE (.econsS "ashram_name" "X" .enil) "ashram_name" = some v →
        ∃ s, v = Val.vstr s)) ∧
    ((∃ b, (save_survey_data { makedirsErr := none, writeErr := some "disk full" }
        "2025-01-01 00:00:00" "20250101_000000"
        (.econsS "ashram_name" "X" .enil)).outcome = .ret b) ∧
     (∀ e, ({ makedirsErr := none, writeErr := some "disk full" } : FsEnv).writeErr = some e →
       (save_survey_data { makedirsErr := none, writeErr := some "disk full" }
          "2025-01-01 00:00:00" "20250101_000000"
          (.econsS "ashram_name" "X" .enil)).outcome = .ret false ∧
       ∃ m, (save_survey_data { makedirsErr := none, writeErr := some "disk full" }
          "2025-01-01 00:00:00" "20250101_000000"
          (.econsS "ashram_name" "X" .enil)).messages =
         ["Error saving survey: " ++ m])) :=
  ⟨⟨rfl, fun v hv => by
      have h2 : some (Val.vstr "X") = some v := hv
      cases h2
      exact ⟨"X", rfl⟩⟩,
    try_block_errors_caught _ _ _ _ rfl (fun v hv => by
      have h2 : some (Val.vstr "X") = some v := hv
      cases h2
      exact ⟨"X", rfl⟩)⟩

/-- C4 (code bug): the spec's "best-effort partial submission" policy
fails when the Property section was never visited.  `main` line 281 calls
`.get` on the Property slot with no exception handling, so submitting
with that slot still `None` — in particular with the all-`None` empty
record — raises an uncaught `AttributeError` instead of producing a
one-row artifact of `"N/A"` values. -/
theorem submit_unvisited_property_raises :
    (submit_survey envOk "2025-01-01 00:00:00" "20250101_000000"
        none none none).outcome =
      .raised "AttributeError: NoneType object has no attribute get" ∧
    (submit_survey envOk "2025-01-01 00:00:00" "20250101_000000"
        none none none).artifact = none := by decide

/-- C5 (counterexample): submitting a record whose `ashram_name` is
`"St. Mary"` does NOT produce a file named `St__Mary_<timestamp>.xlsx`:
neither `.` nor the space is in `sanitize_filename`'s blocked character
set, so the name passes through unchanged and the file is
`St. Mary_<timestamp>.xlsx`. -/
theorem st_mary_filename_cex :
    (save_survey_data envOk "2024-01-01 00:00:00" "20240101_000000"
        (.econsS "ashram_name" "St. Mary" .enil)).filename =
      some "St. Mary_20240101_000000.xlsx" ∧
    (save_survey_data envOk "2024-01-01 00:00:00" "20240101_000000"
        (.econsS "ashram_name" "St. Mary" .enil)).filename ≠
      some "St__Mary_20240101_000000.xlsx" := by decide

/-- C5 (amended): submitting a record with `ashram_name = "St. Mary"`
and no other answers succeeds and produces a file named
`St. Mary_<timestamp>.xlsx` containing the header row
`["timestamp", "ashram_name"]` and the single data row
`[<timestamp>, "St. Mary"]` — for any timestamp strings that are not
whitespace-only (as the fixed `strftime` formats never are). -/
theorem st_mary_artifact (now1 now2 : String)
    (h : (stripChars now1.data).isEmpty = false) :
    (save_survey_data envOk now1 now2
        (.econsS "ashram_name" "St. Mary" .enil)).outcome = .ret true ∧
    (save_survey_data envOk now1 now2
        (.econsS "ashram_name" "St. Mary" .enil)).artifact =
      some ⟨"St. Mary_" ++ now2 ++ ".xlsx", ["timestamp", "ashram_name"],
            [now1, "St. Mary"]⟩ := by
  have hn : pyNorm now1 = now1 := by simp [pyNorm, h]
  constructor
  · rfl
  · rw [show (save_survey_data envOk now1 now2
          (.econsS "ashram_name" "St. Mary" .enil)).artifact =
        some ⟨"St. Mary_" ++ now2 ++ ".xlsx", ["timestamp", "ashram_name"],
              [pyNorm now1, "St. Mary"]⟩ from rfl, hn]

theorem st_mary_artifact_witness :
    (stripChars "2024-01-01 00:00:00".data).isEmpty = false ∧
    ((save_survey_data envOk "2024-01-01 00:00:00" "20240101_000000"
        (.econsS "ashram_name" "St. Mary" .enil)).outcome = .ret true ∧
     (save_survey_data envOk "2024-01-01 00:00:00" "20240101_000000"
        (.econsS "ashram_name" "St. Mary" .enil)).artifact =
      some ⟨"St. Mary_" ++ "20240101_000000" ++ ".xlsx",
            ["timestamp", "ashram_name"],
            ["2024-01-01 00:00:00", "St. Mary"]⟩) :=
  ⟨by decide, st_mary_artifact "2024-01-01 00:00:00" "20240101_000000" (by decide)⟩

/-- C8: when directory creation succeeds, the persist operation stamps
the record's `timestamp` field with the current-time string and builds
the artifact filename as `<sanitized subject>_<timestamp>.xlsx`, the
subject being the record's `ashram_name` when it is a string and
`"Unknown_Ashram"` when the key is absent — so submitting with no
`ashram_name` yields the filename prefix `Unknown_Ashram_`.  (The
`"YYYY-MM-DD HH:MM:SS"` and `"YYYYMMDD_HHMMSS"` shapes of the two
strings come from the fixed `strftime` format literals at lines 78 and
87 and are taken as given here.) -/
theorem save_filename_and_timestamp (env : FsEnv) (now1 now2 : String)
    (data : Entries) (h : env.makedirsErr = none) :
    (save_survey_data env now1 now2 data).dict =
      setE data "timestamp" (.vstr now1) ∧
    (lookupE data "ashram_name" = none →
      (save_survey_data env now1 now2 data).filename =
        some ("Unknown_Ashram_" ++ now2 ++ ".xlsx")) ∧
    (∀ s, lookupE data "ashram_name" = some (.vstr s) →
      (save_survey_data env now1 now2 data).filename =
        some (sanitize_filename s ++ "_" ++ now2 ++ ".xlsx")) := by
  refine ⟨save_dict_eq env now1 now2 data h, ?_, ?_⟩
  · intro hnone
    have hg : getE (setE data "timestamp" (.vstr now1)) "ashram_name"
        (.vstr "Unknown_Ashram") = .vstr "Unknown_Ashram" := by
      rw [getE, lookupE_stamp, hnone]
      rfl
    rw [save_filename_eq env now1 now2 data _ h hg,
      show sanitize_filename "Unknown_Ashram" ++ "_" = "Unknown_Ashram_" from by decide]
  · intro s hsome
    have hg : getE (setE data "timestamp" (.vstr now1)) "ashram_name"
        (.vstr "Unknown_Ashram") = .vstr s := by
      rw [getE, lookupE_stamp, hsome]
      rfl
    exact save_filename_eq env now1 now2 data s h hg

theorem save_filename_and_timestamp_witness :
    envOk.makedirsErr = none ∧
    ((save_survey_data envOk "2025-06-01 10:00:00" "20250601_100000"
        .enil).dict = setE .enil "timestamp" (.vstr "2025-06-01 10:00:00") ∧
     (lookupE .enil "ashram_name" = none →
       (save_survey_data envOk "2025-06-01 10:00:00" "20250601_100000"
          .enil).filename =
         some ("Unknown_Ashram_" ++ "20250601_100000" ++ ".xlsx")) ∧
     (∀ s, lookupE .enil "ashram_name" = some (.vstr s) →
       (save_survey_data envOk "2025-06-01 10:00:00" "20250601_100000"
          .enil).filename =
         some (sanitize_filename s ++ "_" ++ "20250601_100000" ++ ".xlsx"))) :=
  ⟨rfl, save_filename_and_timestamp envOk "2025-06-01 10:00:00" "20250601_100000"
    .enil rfl⟩

/-- C9: when directory creation succeeds, `save_survey_data` mutates its
input record in place exactly by setting the `timestamp` key to the
current-time string — overwriting any prior `timestamp` value, leaving
its position in the record unchanged if it existed, appending it
otherwise — and every other top-level key keeps its original value. -/
theorem save_mutates_only_timestamp (env : FsEnv) (now1 now2 : String)
    (data : Entries) (h : env.makedirsErr = none) :
    (save_survey_data env now1 now2 data).dict =
      setE data "timestamp" (.vstr now1) ∧
    lookupE (save_survey_data env now1 now2 data).dict "timestamp" =
      some (.vstr now1) ∧
    (∀ k, k ≠ "timestamp" →
      lookupE (save_survey_data env now1 now2 data).dict k = lookupE data k) := by
  have hd := save_dict_eq env now1 now2 data h
  refine ⟨hd, ?_, ?_⟩
  · rw [hd]
    exact lookupE_setE_self data "timestamp" _
  · intro k hk
    rw [hd]
    exact lookupE_setE_ne data "timestamp" k _ hk

theorem save_mutates_only_timestamp_witness :
    envOk.makedirsErr = none ∧
    ((save_survey_data envOk "2025-06-01 10:00:00" "20250601_100000"
        (.econsS "ashram_name" "A" (.econsS "timestamp" "old" .enil))).dict =
      setE (.econsS "ashram_name" "A" (.econsS "timestamp" "old" .enil))
        "timestamp" (.vstr "2025-06-01 10:00:00") ∧
     lookupE (save_survey_data envOk "2025-06-01 10:00:00" "20250601_100000"
        (.econsS "ashram_name" "A" (.econsS "timestamp" "old" .enil))).dict
        "timestamp" = some (.vstr "2025-06-01 10:00:00") ∧
     (∀ k, k ≠ "timestamp" →
       lookupE (save_survey_data envOk "2025-06-01 10:00:00" "20250601_100000"
          (.econsS "ashram_name" "A" (.econsS "timestamp" "old" .enil))).dict k =
       lookupE (.econsS "ashram_name" "A" (.econsS "timestamp" "old" .enil)) k)) :=
  ⟨rfl, save_mutates_only_timestamp envOk "2025-06-01 10:00:00" "20250601_100000"
    (.econsS "ashram_name" "A" (.econsS "timestamp" "old" .enil)) rfl⟩

/-- C10: in every submitted survey — the Property section dict always
carries the `ashram_name` text box, and `main` copies that same value to
the top level — the flattened record contains the ashram name twice
under two distinct keys with equal values: as `ashram_name` and as
`Property Ownership and Legal Documents_ashram_name`, a key whose text
contains both the `ashram_name` and the
`Property Ownership and Legal Documents` section names as substrings.
(Stated for any Property answers `rest` and section slots `t`, `i` whose
compound keys do not collide, which holds for the fixed question schema.) -/
theorem ashram_name_duplicated_in_flat (a : String) (rest : Entries)
    (t i : Option Entries)
    (h : (keysOf (specFE "" "_"
      (final_survey_data (.econsS "ashram_name" a rest) t i))).Nodup) :
    ∃ v,
      (flatten_nested_dict
          (final_survey_data (.econsS "ashram_name" a rest) t i) "" "_").find?
          (fun q => q.1 = "ashram_name") = some ("ashram_name", v) ∧
      (flatten_nested_dict
          (final_survey_data (.econsS "ashram_name" a rest) t i) "" "_").find?
          (fun q => q.1 = "Property Ownership and Legal Documents_ashram_name") =
        some ("Property Ownership and Legal Documents_ashram_name", v) ∧
      pyIn "ashram_name"
        "Property Ownership and Legal Documents_ashram_name" = true ∧
      pyIn "Property Ownership and Legal Documents"
        "Property Ownership and Legal Documents_ashram_name" = true := by
  have hspec : specFE "" "_" (final_survey_data (.econsS "ashram_name" a rest) t i) =
      ("ashram_name", pyNorm a) ::
        (("Property Ownership and Legal Documents_ashram_name", pyNorm a) ::
          specFE "Property Ownership and Legal Documents" "_" rest) ++
        specFE "" "_" (econsV "Trust/Society Details & Documents" (optV t)
          (econsV "Institutions Details & Documents" (optV i) .enil)) := rfl
  have hflat : flatten_nested_dict
      (final_survey_data (.econsS "ashram_name" a rest) t i) "" "_" =
      specFE "" "_" (final_survey_data (.econsS "ashram_name" a rest) t i) := by
    rw [flatten_nested_dict, fndE_eq_specFE _ _ _ h, pyDict_of_nodup _ h]
  refine ⟨pyNorm a, ?_, ?_, by decide, by decide⟩
  · rw [hflat, hspec]
    rfl
  · rw [hflat, hspec]
    rfl

theorem ashram_name_duplicated_in_flat_witness :
    (keysOf (specFE "" "_"
      (final_survey_data (.econsS "ashram_name" "X" .enil) none none))).Nodup ∧
    (∃ v,
      (flatten_nested_dict
          (final_survey_data (.econsS "ashram_name" "X" .enil) none none) "" "_").find?
          (fun q => q.1 = "ashram_name") = some ("ashram_name", v) ∧
      (flatten_nested_dict
          (final_survey_data (.econsS "ashram_name" "X" .enil) none none) "" "_").find?
          (fun q => q.1 = "Property Ownership and Legal Documents_ashram_name") =
        some ("Property Ownership and Legal Documents_ashram_name", v) ∧
      pyIn "ashram_name"
        "Property Ownership and Legal Documents_ashram_name" = true ∧
      pyIn "Property Ownership and Legal Documents"
        "Property Ownership and Legal Documents_ashram_name" = true) :=
  ⟨by decide, ashram_name_duplicated_in_flat "X" .enil none none (by decide)⟩
